import Mathlib

/-!
Verification of the image enrichment pipeline of the Travel-mate backend
(`AIService/image_service.py`).

The Python service keeps a process-wide dict `self.cache` mapping string keys
to `(value, timestamp)` pairs.  Python dicts are insertion ordered and have
unique keys, so the cache is embedded as an insertion-ordered association
list of entries; dict assignment updates the (unique) matching entry in
place, or appends a fresh entry at the end.  Timestamps are modelled as
natural numbers.
-/

namespace TravelMate

/-- One entry of `self.cache`: `self.cache[key] = (images, timestamp)`. -/
structure CacheEntry where
  key : String
  value : List String
  insertedAt : Nat
  deriving Repr, DecidableEq

/-- The in-memory cache, in dict (insertion) order. -/
abbrev Cache := List CacheEntry

/-- `self.cache_ttl = 86400  # 24 hours for images`. -/
def cache_ttl : Nat := 86400

/-- Dict lookup `self.cache[key]` (unique key in a well-formed cache). -/
def cacheLookup (c : Cache) (k : String) : Option CacheEntry :=
  c.find? (fun e => e.key == k)

/-- `ImageService._get_from_cache`: return the cached value if its age is
below the TTL; delete the entry (and report a miss) when it has expired.
The returned cache is the state of `self.cache` after the call. -/
def get_from_cache (c : Cache) (k : String) (now ttl : Nat) :
    Option (List String) × Cache :=
  match cacheLookup c k with
  | some e =>
      if now - e.insertedAt < ttl then (some e.value, c)
      else (none, c.filter (fun e => !(e.key == k)))
  | none => (none, c)

/-- Dict assignment `self.cache[key] = (images, timestamp)`: replace the
entry holding `key` in place, or append a new entry. -/
def insertEntry : Cache → String → List String → Nat → Cache
  | [], k, v, now => [⟨k, v, now⟩]
  | e :: es, k, v, now =>
      if e.key == k then ⟨k, v, now⟩ :: es
      else e :: insertEntry es k v now

/-- Stable insert used by `sortEntries`; an element is placed after every
element whose timestamp is less than or equal to its own, matching the
stability of Python's `sorted(..., key=lambda x: x[1][1])`. -/
def insertByTs (x : CacheEntry) : Cache → Cache
  | [] => [x]
  | y :: ys =>
      if y.insertedAt ≤ x.insertedAt then y :: insertByTs x ys
      else x :: y :: ys

/-- Stable sort of the cache items by insertion timestamp, ascending. -/
def sortEntries : Cache → Cache
  | [] => []
  | x :: xs => insertByTs x (sortEntries xs)

/-- The size-bound sweep at the end of `_save_to_cache`: when the dict has
grown past 500 entries, delete the keys of the oldest 100 items (by
timestamp, ties broken by dict order thanks to sort stability). -/
def sweep (c : Cache) : Cache :=
  if c.length > 500 then
    let victims := ((sortEntries c).take 100).map CacheEntry.key
    c.filter (fun e => !(victims.contains e.key))
  else c

/-- `ImageService._save_to_cache`: store the value under the key with the
current timestamp, then run the size-bound cleanup. -/
def save_to_cache (c : Cache) (k : String) (v : List String) (now : Nat) :
    Cache :=
  sweep (insertEntry c k v now)

/-! Basic lemmas about the cache operations. -/

theorem insertByTs_perm (x : CacheEntry) (l : Cache) :
    (insertByTs x l).Perm (x :: l) := by
  induction l with
  | nil => simp [insertByTs]
  | cons y ys ih =>
      by_cases h : y.insertedAt ≤ x.insertedAt
      · simp only [insertByTs, if_pos h]
        exact ((ih.cons y).trans (List.Perm.swap x y ys))
      · simp [insertByTs, if_neg h]

theorem sortEntries_perm (l : Cache) : (sortEntries l).Perm l := by
  induction l with
  | nil => simp [sortEntries]
  | cons x xs ih =>
      exact (insertByTs_perm x (sortEntries xs)).trans (ih.cons x)

/-- The timestamp ordering used by the sweep. -/
def tsLe (a b : CacheEntry) : Prop := a.insertedAt ≤ b.insertedAt

theorem insertByTs_pairwise (x : CacheEntry) (l : Cache)
    (h : l.Pairwise tsLe) : (insertByTs x l).Pairwise tsLe := by
  induction l with
  | nil => simp [insertByTs, tsLe]
  | cons y ys ih =>
      rcases List.pairwise_cons.mp h with ⟨hy, hys⟩
      by_cases hle : y.insertedAt ≤ x.insertedAt
      · simp only [insertByTs, if_pos hle]
        refine List.pairwise_cons.mpr ⟨?_, ih hys⟩
        intro z hz
        rcases List.mem_cons.mp ((insertByTs_perm x ys).mem_iff.mp hz) with hzx | hzy
        · exact hzx ▸ hle
        · exact hy z hzy
      · simp only [insertByTs, if_neg hle]
        refine List.pairwise_cons.mpr ⟨?_, h⟩
        intro z hz
        have hxy : x.insertedAt ≤ y.insertedAt := le_of_lt (lt_of_not_le hle)
        rcases List.mem_cons.mp hz with hzy | hzys
        · exact hzy ▸ hxy
        · exact le_trans hxy (hy z hzys)

theorem sortEntries_pairwise (l : Cache) : (sortEntries l).Pairwise tsLe := by
  induction l with
  | nil => simp [sortEntries]
  | cons x xs ih => exact insertByTs_pairwise x (sortEntries xs) ih

/-- In a timestamp-sorted list, everything in the taken prefix is no newer
than anything in the dropped suffix. -/
theorem sorted_take_le_drop (s : Cache) (n : Nat) (h : s.Pairwise tsLe) :
    ∀ x ∈ s.take n, ∀ y ∈ s.drop n, x.insertedAt ≤ y.insertedAt := by
  intro x hx y hy
  have hsplit : s.take n ++ s.drop n = s := List.take_append_drop n s
  rw [← hsplit] at h
  exact (List.pairwise_append.mp h).2.2 x hx y hy

/-!
Provider adapters.  An HTTP call either yields a response (status code plus
the parsed JSON body), times out, or fails with some other exception; the
adapters absorb every one of these outcomes.
-/

/-- The outcome of one `httpx` GET, as seen by an adapter. -/
inductive HttpOutcome (β : Type) where
  | response (status : Nat) (body : β)
  | timeout
  | exn
  deriving Repr, DecidableEq

/-- One photo object of the Unsplash success envelope (the fields the
adapter reads: `photo["urls"]["regular"]` and `photo["urls"]["thumb"]`). -/
structure UnsplashPhoto where
  regular : String
  thumb : String
  deriving Repr, DecidableEq

/-- The Unsplash success body: `data.get("results", [])`. -/
structure UnsplashBody where
  results : List UnsplashPhoto
  deriving Repr, DecidableEq

/-- One photo object of the Pexels success envelope (`photo["src"]["large"]`,
`photo["src"]["medium"]`, `photo["photographer"]`). -/
structure PexelsPhoto where
  large : String
  medium : String
  photographer : String
  deriving Repr, DecidableEq

/-- The Pexels success body: `data.get("photos", [])`. -/
structure PexelsBody where
  photos : List PexelsPhoto
  deriving Repr, DecidableEq

/-- `ImageService._fetch_from_unsplash`: on a 200 response map the results
to their `regular` URL and truncate to `count`; on any other status, on a
timeout or on any other exception return the empty list. -/
def fetch_from_unsplash (r : HttpOutcome UnsplashBody) (count : Nat) :
    List String :=
  match r with
  | .response status body =>
      if status = 200 then (body.results.map UnsplashPhoto.regular).take count
      else []
  | .timeout => []
  | .exn => []

/-- `ImageService._fetch_from_pexels`: on a 200 response map the photos to
their `large` URL and truncate to `count`; every failure mode yields the
empty list. -/
def fetch_from_pexels (r : HttpOutcome PexelsBody) (count : Nat) :
    List String :=
  match r with
  | .response status body =>
      if status = 200 then (body.photos.map PexelsPhoto.large).take count
      else []
  | .timeout => []
  | .exn => []

/-- `ImageService._generate_placeholder_images`: `count` copies of a
placeholder URL embedding the query with spaces replaced by plus signs. -/
def generate_placeholder_images (q : String) (count : Nat) : List String :=
  let clean_query := q.replace " " "+"
  List.replicate count
    ("https://via.placeholder.com/800x600/3B82F6/FFFFFF?text=" ++ clean_query)

/-- The cache key built in `_fetch_images_for_query`:
`cache_key = f"images_\x7bsearch_query\x7d_\x7bcount\x7d"`. -/
def image_cache_key (q : String) (count : Nat) : String :=
  "images_" ++ q ++ "_" ++ toString count

/-- What the network does for one query: either an unexpected exception is
raised somewhere inside the per-query task, or both providers' HTTP calls
settle with the given outcomes. -/
inductive QueryOutcome where
  | throws
  | responds (unsplash : HttpOutcome UnsplashBody) (pexels : HttpOutcome PexelsBody)

/-- The ambient state of one `ImageService` instance during a batch: whether
each provider has credentials (`self.unsplash_headers` / `self.pexels_headers`
are non-`None`), and how the network answers each query. -/
structure ServiceEnv where
  unsplashCreds : Bool
  pexelsCreds : Bool
  net : String → QueryOutcome

/-- The body of `_fetch_images_for_query` once the per-query task is known
not to raise: cache lookup, then Unsplash (if credentialed), then Pexels
(if credentialed), then placeholders.  Returns the images together with the
resulting cache state. -/
def fetch_images_for_query_responds (uc pc : Bool)
    (u : HttpOutcome UnsplashBody) (p : HttpOutcome PexelsBody)
    (cache : Cache) (q : String) (count now : Nat) : List String × Cache :=
  let cache_key := image_cache_key q count
  let looked := get_from_cache cache cache_key now cache_ttl
  let cache1 := looked.2
  let cached_images := looked.1.getD []
  if cached_images.isEmpty then
    let pexels_step : List String × Cache :=
      if pc then
        let images := fetch_from_pexels p count
        if images.isEmpty then (generate_placeholder_images q count, cache1)
        else (images, save_to_cache cache1 cache_key images now)
      else (generate_placeholder_images q count, cache1)
    if uc then
      let images := fetch_from_unsplash u count
      if images.isEmpty then pexels_step
      else (images, save_to_cache cache1 cache_key images now)
    else pexels_step
  else (cached_images, cache1)

/-- `ImageService._fetch_images_for_query` as one per-query task: an
unexpected exception propagates out of the task (to be caught at the batch
boundary), otherwise the fallback chain above runs. -/
def fetch_images_for_query (env : ServiceEnv) (cache : Cache) (q : String)
    (count now : Nat) : Except Unit (List String × Cache) :=
  match env.net q with
  | .throws => .error ()
  | .responds u p =>
      .ok (fetch_images_for_query_responds env.unsplashCreds env.pexelsCreds
        u p cache q count now)

/-- `ImageService._batch_fetch_images`: one task per query, gathered with
`return_exceptions=True`; a task that raised contributes an empty list.
The concurrent tasks are modelled as each running against the cache state
at the start of the batch. -/
def batch_fetch_images (env : ServiceEnv) (cache : Cache)
    (search_queries : List String) (images_per_query now : Nat) :
    List (List String) :=
  search_queries.map (fun q =>
    match fetch_images_for_query env cache q images_per_query now with
    | .ok r => r.1
    | .error _ => [])

/-!
Recommendation records.  The Python records are dicts read with `.get` and
a default, so each field read that way is an `Option` here.
-/

/-- A destination recommendation record (the fields the pipeline reads and
the four image slots it writes). -/
structure DestRecord where
  name : Option String := none
  location : Option String := none
  settlement_type : Option String := none
  title : Option String := none
  image : Option String := none
  image2 : Option String := none
  image3 : Option String := none
  image4 : Option String := none
  deriving Repr, DecidableEq

/-- A trip-activity recommendation record. -/
structure ActivityRecord where
  title : Option String := none
  destination : Option String := none
  category : Option String := none
  images : List String := []
  coverImage : Option String := none
  deriving Repr, DecidableEq

/-- Python's `" ".join(parts)`. -/
def joinSpace : List String → String
  | [] => ""
  | [x] => x
  | x :: xs => x ++ " " ++ joinSpace xs

/-- `ImageService._build_destination_search_query`: name, location and a
settlement-type hint, joined by spaces with empty parts filtered out. -/
def build_destination_search_query (r : DestRecord) : String :=
  let name := r.name.getD ""
  let location := r.location.getD ""
  let settlement_type := r.settlement_type.getD "city"
  let hint :=
    if settlement_type = "beach" ∨ settlement_type = "island" then "beach"
    else if settlement_type = "resort" then "resort"
    else "travel"
  joinSpace (([name, location] ++ [hint]).filter (fun s => !(s == "")))

/-- `ImageService._build_activity_search_query`: title plus destination for
Sightseeing, Culture and Nature, the bare title otherwise. -/
def build_activity_search_query (a : ActivityRecord) : String :=
  let title := a.title.getD ""
  let destination := a.destination.getD ""
  let category := a.category.getD ""
  if category = "Sightseeing" ∨ category = "Culture" ∨ category = "Nature" then
    title ++ " " ++ destination
  else title

/-- The per-record slot assignment of `enhance_destinations_with_images`:
`rec["image"] = images[0] if len(images) > 0 else None`, etc. -/
def set_dest_images (r : DestRecord) (images : List String) : DestRecord :=
  { r with image := images[0]?, image2 := images[1]?,
           image3 := images[2]?, image4 := images[3]? }

/-- The `for i, rec in enumerate(recommendations)` loop: record `i` gets
`all_images[i] if i < len(all_images) else []`. -/
def attach_dest_images : List DestRecord → List (List String) → List DestRecord
  | [], _ => []
  | r :: rs, imgs =>
      set_dest_images r (imgs.head?.getD []) :: attach_dest_images rs imgs.tail

/-- The per-record slot assignment of `enhance_trip_activities_with_images`:
the images list verbatim plus `coverImage = images[0] if images else None`. -/
def set_activity_images (a : ActivityRecord) (images : List String) :
    ActivityRecord :=
  { a with images := images, coverImage := images[0]? }

/-- The `for i, activity in enumerate(activities)` loop. -/
def attach_activity_images :
    List ActivityRecord → List (List String) → List ActivityRecord
  | [], _ => []
  | a :: as_, imgs =>
      set_activity_images a (imgs.head?.getD []) ::
        attach_activity_images as_ imgs.tail

/-- `ImageService.enhance_destinations_with_images`. -/
def enhance_destinations_with_images (env : ServiceEnv) (cache : Cache)
    (recommendations : List DestRecord) (images_per_destination now : Nat) :
    List DestRecord :=
  if recommendations.isEmpty then recommendations
  else
    let search_queries := recommendations.map build_destination_search_query
    let all_images :=
      batch_fetch_images env cache search_queries images_per_destination now
    attach_dest_images recommendations all_images

/-- `ImageService.enhance_trip_activities_with_images`. -/
def enhance_trip_activities_with_images (env : ServiceEnv) (cache : Cache)
    (activities : List ActivityRecord) (images_per_activity now : Nat) :
    List ActivityRecord :=
  if activities.isEmpty then activities
  else
    let search_queries := activities.map build_activity_search_query
    let all_images :=
      batch_fetch_images env cache search_queries images_per_activity now
    attach_activity_images activities all_images

/-! Lemmas about dict assignment and lookup. -/

theorem find?_eq_head?_filter {α : Type} (p : α → Bool) (l : List α) :
    l.find? p = (l.filter p).head? := by
  induction l with
  | nil => rfl
  | cons x xs ih =>
      rw [List.find?_cons, List.filter_cons]
      cases h : p x
      · rw [if_neg (by simp [h]), ih]
      · rw [if_pos (by simp [h])]
        rfl

theorem cacheLookup_nil (k : String) : cacheLookup [] k = none := rfl

theorem cacheLookup_cons (e : CacheEntry) (es : Cache) (k : String) :
    cacheLookup (e :: es) k =
      if e.key == k then some e else cacheLookup es k := by
  by_cases h : e.key == k <;> simp [cacheLookup, List.find?_cons, h]

theorem insertEntry_lookup_self (c : Cache) (k : String) (v : List String)
    (now : Nat) :
    cacheLookup (insertEntry c k v now) k = some ⟨k, v, now⟩ := by
  induction c with
  | nil => simp [insertEntry, cacheLookup_cons]
  | cons e es ih =>
      by_cases h : e.key == k
      · rw [insertEntry, if_pos h, cacheLookup_cons]
        simp
      · rw [insertEntry, if_neg h, cacheLookup_cons, if_neg h]
        exact ih

theorem insertEntry_lookup_other (c : Cache) (k : String) (v : List String)
    (now : Nat) (k' : String) (h : k' ≠ k) :
    cacheLookup (insertEntry c k v now) k' = cacheLookup c k' := by
  have hkk' : (k == k') = false := beq_eq_false_iff_ne.mpr (Ne.symm h)
  induction c with
  | nil =>
      rw [insertEntry, cacheLookup_cons]
      simp [hkk', cacheLookup_nil]
  | cons e es ih =>
      by_cases he : e.key == k
      · have hek : e.key = k := by simpa using he
        rw [insertEntry, if_pos he, cacheLookup_cons, cacheLookup_cons]
        simp [hek, hkk']
      · rw [insertEntry, if_neg he, cacheLookup_cons, cacheLookup_cons]
        by_cases he' : e.key == k'
        · simp [he']
        · simp only [he', if_false]
          exact ih

theorem insertEntry_length (c : Cache) (k : String) (v : List String)
    (now : Nat) :
    (insertEntry c k v now).length =
      if c.any (fun e => e.key == k) then c.length else c.length + 1 := by
  induction c with
  | nil => simp [insertEntry]
  | cons e es ih =>
      by_cases h : e.key == k
      · rw [insertEntry, if_pos h]
        simp [List.any_cons, h]
      · rw [insertEntry, if_neg h]
        have hb : (e.key == k) = false := by simpa using h
        simp only [List.length_cons, List.any_cons, hb, Bool.false_or]
        rw [ih]
        by_cases ha : es.any (fun e => e.key == k) <;> simp [ha]

theorem insertEntry_mem (c : Cache) (k : String) (v : List String) (now : Nat) :
    ∀ e ∈ insertEntry c k v now, e = ⟨k, v, now⟩ ∨ e ∈ c := by
  induction c with
  | nil => simp [insertEntry]
  | cons x xs ih =>
      intro e he
      by_cases h : x.key == k
      · rw [insertEntry, if_pos h] at he
        rcases List.mem_cons.mp he with h1 | h1
        · exact Or.inl h1
        · exact Or.inr (List.mem_cons_of_mem x h1)
      · rw [insertEntry, if_neg h] at he
        rcases List.mem_cons.mp he with h1 | h1
        · exact Or.inr (h1 ▸ List.mem_cons_self x xs)
        · rcases ih e h1 with h2 | h2
          · exact Or.inl h2
          · exact Or.inr (List.mem_cons_of_mem x h2)

theorem insertEntry_keys_nodup (c : Cache) (k : String) (v : List String)
    (now : Nat) (hnd : (c.map CacheEntry.key).Nodup) :
    ((insertEntry c k v now).map CacheEntry.key).Nodup := by
  induction c with
  | nil => simp [insertEntry]
  | cons e es ih =>
      rw [List.map_cons] at hnd
      rcases List.nodup_cons.mp hnd with ⟨hk, hnd'⟩
      by_cases h : e.key == k
      · have hek : e.key = k := by simpa using h
        rw [insertEntry, if_pos h, List.map_cons]
        exact List.nodup_cons.mpr ⟨by rw [show CacheEntry.key ⟨k, v, now⟩ = e.key from hek.symm]; exact hk, hnd'⟩
      · have hek : ¬ e.key = k := by simpa using h
        rw [insertEntry, if_neg h, List.map_cons]
        refine List.nodup_cons.mpr ⟨?_, ih hnd'⟩
        intro hmem
        rcases List.mem_map.mp hmem with ⟨x, hx, hxk⟩
        rcases insertEntry_mem es k v now x hx with h1 | h1
        · exact hek (by rw [← hxk, h1])
        · exact hk (List.mem_map.mpr ⟨x, h1, hxk⟩)

theorem insertEntry_filter_key (c : Cache) (k : String) (v : List String)
    (now : Nat) (hnd : (c.map CacheEntry.key).Nodup) :
    (insertEntry c k v now).filter (fun e => e.key == k) = [⟨k, v, now⟩] := by
  induction c with
  | nil => simp [insertEntry, List.filter]
  | cons e es ih =>
      rw [List.map_cons] at hnd
      rcases List.nodup_cons.mp hnd with ⟨hk, hnd'⟩
      by_cases h : e.key == k
      · have hek : e.key = k := by simpa using h
        have hnone : es.filter (fun e => e.key == k) = [] := by
          refine List.filter_eq_nil_iff.mpr ?_
          intro x hx hxk
          refine hk (List.mem_map.mpr ⟨x, hx, ?_⟩)
          rw [hek]
          simpa using hxk
        rw [insertEntry, if_pos h, List.filter_cons, if_pos (by simp), hnone]
      · rw [insertEntry, if_neg h, List.filter_cons, if_neg (by simpa using h)]
        exact ih hnd'

theorem insertEntry_countP_now (c : Cache) (k : String) (v : List String)
    (now : Nat) (hfresh : ∀ e ∈ c, e.insertedAt < now) :
    (insertEntry c k v now).countP (fun e => decide (now ≤ e.insertedAt)) = 1 := by
  induction c with
  | nil => simp [insertEntry]
  | cons e es ih =>
      have he : e.insertedAt < now := hfresh e (List.mem_cons_self e es)
      have hfresh' : ∀ x ∈ es, x.insertedAt < now := fun x hx =>
        hfresh x (List.mem_cons_of_mem e hx)
      by_cases h : e.key == k
      · have hzero : es.countP (fun e => decide (now ≤ e.insertedAt)) = 0 := by
          refine List.countP_eq_zero.mpr ?_
          intro x hx
          simpa using Nat.not_le.mpr (hfresh' x hx)
        rw [insertEntry, if_pos h, List.countP_cons, hzero]
        simp
      · rw [insertEntry, if_neg h, List.countP_cons, ih hfresh']
        simp [Nat.not_le.mpr he]

theorem countP_key_eq_one (c : Cache) (k : String) (e : CacheEntry)
    (hnd : (c.map CacheEntry.key).Nodup) (hfind : cacheLookup c k = some e) :
    c.countP (fun x => x.key == k) = 1 := by
  induction c with
  | nil => simp [cacheLookup, List.find?] at hfind
  | cons x xs ih =>
      rw [List.map_cons] at hnd
      rcases List.nodup_cons.mp hnd with ⟨hk, hnd'⟩
      by_cases h : x.key == k
      · have hxk : x.key = k := by simpa using h
        have hzero : xs.countP (fun y => y.key == k) = 0 := by
          refine List.countP_eq_zero.mpr ?_
          intro y hy hyk
          refine hk (List.mem_map.mpr ⟨y, hy, ?_⟩)
          rw [hxk]
          simpa using hyk
        rw [List.countP_cons, hzero]
        simp [h]
      · rw [cacheLookup_cons, if_neg h] at hfind
        rw [List.countP_cons, ih hnd' hfind]
        simp [h]

/-! Lemmas about the size-bound sweep. -/

theorem sweep_of_le (c : Cache) (h : c.length ≤ 500) : sweep c = c := by
  unfold sweep
  rw [if_neg (by omega)]

/-- Every element of the sorted take-100 prefix is, when the cache has
unique keys, the unique entry carrying its own key. -/
theorem take100_key_unique (c : Cache) (hnd : (c.map CacheEntry.key).Nodup)
    (e x : CacheEntry) (he : e ∈ c)
    (hx : x ∈ (sortEntries c).take 100) (hxe : x.key = e.key) : x = e := by
  have hxc : x ∈ c := (sortEntries_perm c).mem_iff.mp (List.mem_of_mem_take hx)
  exact List.inj_on_of_nodup_map hnd hxc he hxe

/-- In an over-full cache with unique keys, the sweep keeps exactly the
entries outside the sorted oldest-100 prefix. -/
theorem sweep_mem_iff (c : Cache) (hnd : (c.map CacheEntry.key).Nodup)
    (hbig : 500 < c.length) (e : CacheEntry) (he : e ∈ c) :
    (e ∈ sweep c ↔ e ∉ (sortEntries c).take 100) := by
  unfold sweep
  rw [if_pos (by omega)]
  rw [List.mem_filter]
  constructor
  · rintro ⟨-, hnv⟩ hmem
    have hkmem : e.key ∈ ((sortEntries c).take 100).map CacheEntry.key :=
      List.mem_map.mpr ⟨e, hmem, rfl⟩
    have hct : (((sortEntries c).take 100).map CacheEntry.key).contains e.key
        = true :=
      List.contains_iff_exists_mem_beq.mpr ⟨e.key, hkmem, by simp⟩
    rw [Bool.not_eq_eq_eq_not, Bool.not_true, hct] at hnv
    simp at hnv
  · intro hnmem
    refine ⟨he, ?_⟩
    rw [Bool.not_eq_eq_eq_not, Bool.not_true, Bool.eq_false_iff]
    intro hc
    rcases List.contains_iff_exists_mem_beq.mp hc with ⟨kk, hkk, hbeq⟩
    rcases List.mem_map.mp hkk with ⟨x, hx, hxk⟩
    have hxe : x = e := take100_key_unique c hnd e x he hx
      (by rw [hxk]; exact (beq_iff_eq.mp hbeq).symm)
    exact hnmem (hxe ▸ hx)

theorem sweep_subset (c : Cache) : ∀ e ∈ sweep c, e ∈ c := by
  intro e he
  unfold sweep at he
  by_cases h : c.length > 500
  · rw [if_pos h] at he
    exact (List.mem_filter.mp he).1
  · rwa [if_neg h] at he

theorem sweep_sublist (c : Cache) : (sweep c).Sublist c := by
  unfold sweep
  by_cases h : c.length > 500
  · rw [if_pos h]
    exact List.filter_sublist c
  · rw [if_neg h]

theorem sweep_length_big (c : Cache) (hnd : (c.map CacheEntry.key).Nodup)
    (hbig : 500 < c.length) : (sweep c).length = c.length - 100 := by
  have hsplit : (sortEntries c).take 100 ++ (sortEntries c).drop 100 =
      sortEntries c := List.take_append_drop 100 (sortEntries c)
  have hslen : (sortEntries c).length = c.length :=
    (sortEntries_perm c).length_eq
  have htlen : ((sortEntries c).take 100).length = 100 := by
    rw [List.length_take]
    omega
  have hdlen : ((sortEntries c).drop 100).length = c.length - 100 := by
    rw [List.length_drop]
    omega
  set victims := ((sortEntries c).take 100).map CacheEntry.key with hvic
  have hkeysnd : ((sortEntries c).map CacheEntry.key).Nodup :=
    (((sortEntries_perm c).map CacheEntry.key).nodup_iff).mpr hnd
  have hdisj : ∀ x ∈ (sortEntries c).drop 100, x.key ∉ victims := by
    intro x hx hxv
    rw [← hsplit, List.map_append] at hkeysnd
    have hdisj' := List.disjoint_of_nodup_append hkeysnd
    exact hdisj' hxv (List.mem_map.mpr ⟨x, hx, rfl⟩)
  have hcount : c.countP (fun e => !(victims.contains e.key)) =
      c.length - 100 := by
    have hperm : (sortEntries c).countP (fun e => !(victims.contains e.key)) =
        c.countP (fun e => !(victims.contains e.key)) :=
      (sortEntries_perm c).countP_eq _
    rw [← hperm, ← hsplit, List.countP_append]
    have ht0 : ((sortEntries c).take 100).countP
        (fun e => !(victims.contains e.key)) = 0 := by
      refine List.countP_eq_zero.mpr ?_
      intro x hx
      have hct : victims.contains x.key = true :=
        List.contains_iff_exists_mem_beq.mpr
          ⟨x.key, List.mem_map.mpr ⟨x, hx, rfl⟩, by simp⟩
      simp only [hct, Bool.not_true]
      simp
    have htd : ((sortEntries c).drop 100).countP
        (fun e => !(victims.contains e.key)) =
        ((sortEntries c).drop 100).length := by
      refine List.countP_eq_length.mpr ?_
      intro x hx
      have hct : victims.contains x.key = false := by
        rw [Bool.eq_false_iff]
        intro hct
        rcases List.contains_iff_exists_mem_beq.mp hct with ⟨b, hb, hbeq⟩
        exact hdisj x hx ((beq_iff_eq.mp hbeq) ▸ hb)
      simp only [hct, Bool.not_false]
    rw [ht0, htd, hdlen]
    omega
  unfold sweep
  rw [if_pos (by omega)]
  show (c.filter
      (fun e => !((((sortEntries c).take 100).map CacheEntry.key).contains
        e.key))).length = c.length - 100
  rw [← List.countP_eq_length_filter, ← hvic, hcount]

theorem sweep_oldest (c : Cache) (hnd : (c.map CacheEntry.key).Nodup)
    (hbig : 500 < c.length) :
    ∀ e ∈ c, e ∉ sweep c → ∀ f ∈ sweep c, e.insertedAt ≤ f.insertedAt := by
  intro e he hen f hf
  have het : e ∈ (sortEntries c).take 100 := by
    by_contra hnt
    exact hen ((sweep_mem_iff c hnd hbig e he).mpr hnt)
  have hfc : f ∈ c := sweep_subset c f hf
  have hfnt : f ∉ (sortEntries c).take 100 :=
    (sweep_mem_iff c hnd hbig f hfc).mp hf
  have hfs : f ∈ sortEntries c := (sortEntries_perm c).mem_iff.mpr hfc
  have hfd : f ∈ (sortEntries c).drop 100 := by
    rcases List.mem_append.mp
        (by rw [List.take_append_drop]; exact hfs :
          f ∈ (sortEntries c).take 100 ++ (sortEntries c).drop 100) with h | h
    · exact absurd h hfnt
    · exact h
  exact sorted_take_le_drop (sortEntries c) 100 (sortEntries_pairwise c)
    e het f hfd

/-- A freshly written entry survives the sweep: if the cache holds exactly
one entry under `k` (the just-written one, at time `now`) and exactly one
entry as new as `now`, a lookup after the sweep still finds it. -/
theorem sweep_lookup_newest (c : Cache) (k : String) (v : List String)
    (now : Nat)
    (hfk : c.filter (fun e => e.key == k) = [⟨k, v, now⟩])
    (hcount : c.countP (fun e => decide (now ≤ e.insertedAt)) = 1) :
    cacheLookup (sweep c) k = some ⟨k, v, now⟩ := by
  by_cases hbig : 500 < c.length
  · have hsplit : (sortEntries c).take 100 ++ (sortEntries c).drop 100 =
        sortEntries c := List.take_append_drop 100 (sortEntries c)
    have hslen : (sortEntries c).length = c.length :=
      (sortEntries_perm c).length_eq
    have hdlen : ((sortEntries c).drop 100).length = c.length - 100 := by
      rw [List.length_drop]
      omega
    -- every entry of the sorted oldest-100 prefix is strictly older than now
    have htold : ∀ x ∈ (sortEntries c).take 100, x.insertedAt < now := by
      intro x hx
      by_contra hge
      have hnle : now ≤ x.insertedAt := Nat.le_of_not_lt hge
      have hxq : decide (now ≤ x.insertedAt) = true := decide_eq_true hnle
      have hqd : ((sortEntries c).drop 100).countP
          (fun e => decide (now ≤ e.insertedAt)) =
          ((sortEntries c).drop 100).length := by
        refine List.countP_eq_length.mpr ?_
        intro y hy
        have hxy : x.insertedAt ≤ y.insertedAt :=
          sorted_take_le_drop (sortEntries c) 100 (sortEntries_pairwise c)
            x hx y hy
        have : now ≤ y.insertedAt := le_trans hnle hxy
        simpa using this
      have hqt : 0 < ((sortEntries c).take 100).countP
          (fun e => decide (now ≤ e.insertedAt)) :=
        List.countP_pos_iff.mpr ⟨x, hx, hxq⟩
      have hqs : (sortEntries c).countP (fun e => decide (now ≤ e.insertedAt))
          = c.countP (fun e => decide (now ≤ e.insertedAt)) :=
        (sortEntries_perm c).countP_eq _
      rw [← hsplit, List.countP_append, hqd, hdlen] at hqs
      omega
    set victims := ((sortEntries c).take 100).map CacheEntry.key with hvic
    have hknv : victims.contains k = false := by
      rw [Bool.eq_false_iff]
      intro hct
      rcases List.contains_iff_exists_mem_beq.mp hct with ⟨b, hb, hbeq⟩
      rcases List.mem_map.mp ((beq_iff_eq.mp hbeq) ▸ hb) with ⟨x, hx, hxk⟩
      have hxc : x ∈ c :=
        (sortEntries_perm c).mem_iff.mp (List.mem_of_mem_take hx)
      have hxf : x ∈ c.filter (fun e => e.key == k) :=
        List.mem_filter.mpr ⟨hxc, by simp [hxk]⟩
      rw [hfk] at hxf
      have hxw : x = ⟨k, v, now⟩ := by simpa using hxf
      have := htold x hx
      rw [hxw] at this
      simp at this
    unfold sweep
    rw [if_pos (by omega)]
    show cacheLookup
      (c.filter (fun e =>
        !((((sortEntries c).take 100).map CacheEntry.key).contains e.key))) k
      = some ⟨k, v, now⟩
    rw [← hvic]
    unfold cacheLookup
    rw [find?_eq_head?_filter, List.filter_filter]
    have hfunext : (fun (a : CacheEntry) =>
        (a.key == k) && !(victims.contains a.key)) =
        (fun (a : CacheEntry) =>
          !(victims.contains a.key) && (a.key == k)) := by
      funext a
      exact Bool.and_comm _ _
    rw [hfunext, ← List.filter_filter, hfk, List.filter_cons]
    rw [if_pos (by simp only [hknv, Bool.not_false])]
    rfl
  · rw [sweep_of_le c (by omega)]
    unfold cacheLookup
    rw [find?_eq_head?_filter, hfk]
    rfl

/-- A put whose timestamp is newer than every existing entry is found again
by a lookup immediately afterwards, sweep or no sweep. -/
theorem save_lookup_fresh (c : Cache) (k : String) (v : List String)
    (now : Nat) (hnd : (c.map CacheEntry.key).Nodup)
    (hfresh : ∀ e ∈ c, e.insertedAt < now) :
    cacheLookup (save_to_cache c k v now) k = some ⟨k, v, now⟩ := by
  unfold save_to_cache
  exact sweep_lookup_newest _ k v now
    (insertEntry_filter_key c k v now hnd)
    (insertEntry_countP_now c k v now hfresh)

theorem get_from_cache_hit (c : Cache) (k : String) (now ttl : Nat)
    (e : CacheEntry) (he : cacheLookup c k = some e)
    (hage : now - e.insertedAt < ttl) :
    get_from_cache c k now ttl = (some e.value, c) := by
  simp only [get_from_cache, he, if_pos hage]

theorem get_from_cache_none_lookup (c : Cache) (k : String) (now ttl : Nat)
    (h : (get_from_cache c k now ttl).1 = none) :
    cacheLookup (get_from_cache c k now ttl).2 k = none := by
  cases hl : cacheLookup c k with
  | none =>
      simp only [get_from_cache, hl]
  | some e =>
      simp only [get_from_cache, hl] at h ⊢
      by_cases hage : now - e.insertedAt < ttl
      · rw [if_pos hage] at h
        exact absurd h (by simp)
      · rw [if_neg hage]
        unfold cacheLookup
        refine List.find?_eq_none.mpr ?_
        intro x hx
        have := (List.mem_filter.mp hx).2
        simp only [Bool.not_eq_eq_eq_not, Bool.not_true] at this
        simp [this]

theorem get_from_cache_some (c : Cache) (k : String) (now ttl : Nat)
    (v : List String) (h : (get_from_cache c k now ttl).1 = some v) :
    ∃ e, cacheLookup c k = some e ∧ e.value = v ∧ e.key = k ∧
      (get_from_cache c k now ttl).2 = c := by
  cases hl : cacheLookup c k with
  | none =>
      simp only [get_from_cache, hl] at h
      exact absurd h (by simp)
  | some e =>
      simp only [get_from_cache, hl] at h ⊢
      by_cases hage : now - e.insertedAt < ttl
      · rw [if_pos hage] at h ⊢
        refine ⟨e, rfl, by simpa using h, ?_, rfl⟩
        have := List.find?_some hl
        simpa using this
      · rw [if_neg hage] at h
        exact absurd h (by simp)

theorem countP_not_key (c : Cache) (k : String) :
    c.countP (fun e => !(e.key == k)) + c.countP (fun e => e.key == k) =
      c.length := by
  induction c with
  | nil => rfl
  | cons e es ih =>
      rw [List.countP_cons, List.countP_cons, List.length_cons]
      by_cases h : e.key == k
      · rw [h, if_neg (show ¬((!true) = true) by decide),
          if_pos (show (true = true) from rfl)]
        omega
      · have hb : (e.key == k) = false := by simpa using h
        rw [hb, if_pos (show ((!false) = true) from rfl),
          if_neg (show ¬(false = true) by decide)]
        omega

/-! Claim C6. -/

/-- C6: for every key `k` and value `v`, a cache `get` of `k` immediately
after a `put` of `(k, v)` returns `v` provided the elapsed time since the
put is below the TTL (24 hours for image entries, under a monotone clock
with unique keys); a `get` of a key whose entry age has reached the TTL
returns absent and removes the entry, so it no longer counts toward the
cache's size. -/
theorem c6_cache_put_get_ttl :
    (∀ (c : Cache) (k : String) (v : List String) (now later : Nat),
        (c.map CacheEntry.key).Nodup →
        (∀ e ∈ c, e.insertedAt < now) →
        later - now < cache_ttl →
        (get_from_cache (save_to_cache c k v now) k later cache_ttl).1 =
          some v) ∧
    (∀ (c : Cache) (k : String) (e : CacheEntry) (now : Nat),
        (c.map CacheEntry.key).Nodup →
        cacheLookup c k = some e →
        cache_ttl ≤ now - e.insertedAt →
        (get_from_cache c k now cache_ttl).1 = none ∧
        cacheLookup (get_from_cache c k now cache_ttl).2 k = none ∧
        (get_from_cache c k now cache_ttl).2.length + 1 = c.length) ∧
    cache_ttl = 24 * 60 * 60 := by
  refine ⟨?_, ?_, by decide⟩
  · intro c k v now later hnd hfresh hage
    have hl : cacheLookup (save_to_cache c k v now) k = some ⟨k, v, now⟩ :=
      save_lookup_fresh c k v now hnd hfresh
    rw [get_from_cache_hit (save_to_cache c k v now) k later cache_ttl
      ⟨k, v, now⟩ hl hage]
  · intro c k e now hnd he hexp
    have hmain : get_from_cache c k now cache_ttl =
        (none, c.filter (fun x => !(x.key == k))) := by
      simp only [get_from_cache, he]
      rw [if_neg (by omega)]
    refine ⟨by rw [hmain], ?_, ?_⟩
    · exact get_from_cache_none_lookup c k now cache_ttl (by rw [hmain])
    · rw [hmain]
      show (c.filter (fun x => !(x.key == k))).length + 1 = c.length
      rw [← List.countP_eq_length_filter]
      have h1 := countP_not_key c k
      have h2 := countP_key_eq_one c k e hnd he
      omega

/-- C6 witness: a put at time 5 over a singleton cache is readable at time
6, and the singleton entry itself expires at time 86400. -/
theorem c6_cache_put_get_ttl_witness :
    ((([⟨"a", ["x"], 0⟩] : Cache).map CacheEntry.key).Nodup ∧
      (∀ e ∈ ([⟨"a", ["x"], 0⟩] : Cache), e.insertedAt < 5) ∧
      6 - 5 < cache_ttl ∧
      (get_from_cache (save_to_cache [⟨"a", ["x"], 0⟩] "b" ["y"] 5) "b" 6
        cache_ttl).1 = some ["y"]) ∧
    (cacheLookup ([⟨"a", ["x"], 0⟩] : Cache) "a" = some ⟨"a", ["x"], 0⟩ ∧
      cache_ttl ≤ 86400 - 0 ∧
      ((get_from_cache [⟨"a", ["x"], 0⟩] "a" 86400 cache_ttl).1 = none ∧
        cacheLookup (get_from_cache [⟨"a", ["x"], 0⟩] "a" 86400
          cache_ttl).2 "a" = none ∧
        (get_from_cache [⟨"a", ["x"], 0⟩] "a" 86400 cache_ttl).2.length + 1 =
          ([⟨"a", ["x"], 0⟩] : Cache).length)) :=
  ⟨⟨by decide, by decide, by decide,
    c6_cache_put_get_ttl.1 [⟨"a", ["x"], 0⟩] "b" ["y"] 5 6
      (by decide) (by decide) (by decide)⟩,
   ⟨by decide, by decide,
    c6_cache_put_get_ttl.2.1 [⟨"a", ["x"], 0⟩] "a" ⟨"a", ["x"], 0⟩ 86400
      (by decide) (by decide) (by decide)⟩⟩

/-! Claim C9. -/

/-- C9: a put that leaves the cache at or below 500 entries only adds or
overwrites the given key; a put that pushes it beyond 500 entries sweeps
away exactly the 100 oldest-by-timestamp entries, leaving the newer
entries in place. -/
theorem c9_cache_sweep (c : Cache) (k : String) (v : List String) (now : Nat)
    (hnd : (c.map CacheEntry.key).Nodup) :
    ((insertEntry c k v now).length ≤ 500 →
        save_to_cache c k v now = insertEntry c k v now ∧
        cacheLookup (save_to_cache c k v now) k = some ⟨k, v, now⟩ ∧
        (∀ x : String, x ≠ k →
          cacheLookup (save_to_cache c k v now) x = cacheLookup c x) ∧
        (insertEntry c k v now).length =
          (if c.any (fun e => e.key == k) then c.length
           else c.length + 1)) ∧
    (500 < (insertEntry c k v now).length →
        (save_to_cache c k v now).length =
          (insertEntry c k v now).length - 100 ∧
        (save_to_cache c k v now).Sublist (insertEntry c k v now) ∧
        (∀ e ∈ insertEntry c k v now, e ∉ save_to_cache c k v now →
            ∀ x ∈ save_to_cache c k v now,
              e.insertedAt ≤ x.insertedAt)) := by
  constructor
  · intro hle
    have hsw : save_to_cache c k v now = insertEntry c k v now := by
      unfold save_to_cache
      exact sweep_of_le _ hle
    refine ⟨hsw, ?_, ?_, insertEntry_length c k v now⟩
    · rw [hsw]
      exact insertEntry_lookup_self c k v now
    · intro x hx
      rw [hsw]
      exact insertEntry_lookup_other c k v now x hx
  · intro hbig
    have hnd' := insertEntry_keys_nodup c k v now hnd
    refine ⟨?_, ?_, ?_⟩
    · unfold save_to_cache
      exact sweep_length_big _ hnd' hbig
    · unfold save_to_cache
      exact sweep_sublist _
    · unfold save_to_cache
      exact sweep_oldest _ hnd' hbig

/-- A 501-entry cache with pairwise distinct keys, used to exhibit the
sweep branch concretely. -/
def bigCache : Cache :=
  (List.range 501).map
    (fun i => ⟨String.mk (List.replicate i 'a'), ["u"], i⟩)

theorem bigCache_keys_nodup : (bigCache.map CacheEntry.key).Nodup := by
  unfold bigCache
  rw [List.map_map]
  refine List.Nodup.map ?_ (List.nodup_range 501)
  intro i j hij
  have hlen : (List.replicate i 'a').length = (List.replicate j 'a').length :=
    congrArg String.length hij
  simpa using hlen

theorem bigCache_no_key_k : bigCache.any (fun e => e.key == "k") = false := by
  rw [Bool.eq_false_iff]
  intro h
  rcases List.any_eq_true.mp h with ⟨e, he, hk⟩
  unfold bigCache at he
  rcases List.mem_map.mp he with ⟨i, -, rfl⟩
  have hd : List.replicate i 'a' = "k".data :=
    congrArg String.data (beq_iff_eq.mp hk)
  cases i with
  | zero => exact absurd hd (by decide)
  | succ n =>
      rw [List.replicate_succ] at hd
      have hh := congrArg List.head? hd
      simp at hh

theorem bigCache_insert_big :
    500 < (insertEntry bigCache "k" ["v"] 501).length := by
  rw [insertEntry_length, bigCache_no_key_k]
  have : bigCache.length = 501 := by
    unfold bigCache
    simp
  simp [this]

/-- C9 witness: pushing a 501-key cache past the bound sweeps exactly 100
oldest entries. -/
theorem c9_cache_sweep_witness :
    (bigCache.map CacheEntry.key).Nodup ∧
    500 < (insertEntry bigCache "k" ["v"] 501).length ∧
    ((save_to_cache bigCache "k" ["v"] 501).length =
        (insertEntry bigCache "k" ["v"] 501).length - 100 ∧
      (save_to_cache bigCache "k" ["v"] 501).Sublist
        (insertEntry bigCache "k" ["v"] 501) ∧
      (∀ e ∈ insertEntry bigCache "k" ["v"] 501,
          e ∉ save_to_cache bigCache "k" ["v"] 501 →
          ∀ x ∈ save_to_cache bigCache "k" ["v"] 501,
            e.insertedAt ≤ x.insertedAt)) :=
  ⟨bigCache_keys_nodup, bigCache_insert_big,
   (c9_cache_sweep bigCache "k" ["v"] 501 bigCache_keys_nodup).2
     bigCache_insert_big⟩

/-! Claim C5. -/

/-- C5: each provider adapter is a total function of the HTTP outcome (so it
never raises): any non-200 status (including 403, 429 and 401), a timeout,
or any other exception yields the empty list, while a 200 response yields
the mapped URL list truncated to at most `count` entries. -/
theorem c5_adapter_absorbs_errors (count : Nat) :
    (∀ (status : Nat) (body : UnsplashBody), status ≠ 200 →
        fetch_from_unsplash (.response status body) count = []) ∧
    fetch_from_unsplash .timeout count = [] ∧
    fetch_from_unsplash .exn count = [] ∧
    (∀ body : UnsplashBody,
        fetch_from_unsplash (.response 200 body) count =
          (body.results.map UnsplashPhoto.regular).take count ∧
        (fetch_from_unsplash (.response 200 body) count).length ≤ count) ∧
    (∀ (status : Nat) (body : PexelsBody), status ≠ 200 →
        fetch_from_pexels (.response status body) count = []) ∧
    fetch_from_pexels .timeout count = [] ∧
    fetch_from_pexels .exn count = [] ∧
    (∀ body : PexelsBody,
        fetch_from_pexels (.response 200 body) count =
          (body.photos.map PexelsPhoto.large).take count ∧
        (fetch_from_pexels (.response 200 body) count).length ≤ count) := by
  refine ⟨?_, rfl, rfl, ?_, ?_, rfl, rfl, ?_⟩
  · intro status body hs
    simp [fetch_from_unsplash, hs]
  · intro body
    refine ⟨by simp [fetch_from_unsplash], ?_⟩
    simp only [fetch_from_unsplash, if_pos rfl]
    exact le_trans (List.length_take_le count _) le_rfl
  · intro status body hs
    simp [fetch_from_pexels, hs]
  · intro body
    refine ⟨by simp [fetch_from_pexels], ?_⟩
    simp only [fetch_from_pexels, if_pos rfl]
    exact le_trans (List.length_take_le count _) le_rfl

/-- C5 witness: rate-limit, invalid-key, timeout and success outcomes at
`count = 2`. -/
theorem c5_adapter_absorbs_errors_witness :
    ((403 : Nat) ≠ 200 ∧
      fetch_from_unsplash (.response 403 ⟨[⟨"u", "t"⟩]⟩) 2 = []) ∧
    ((401 : Nat) ≠ 200 ∧
      fetch_from_unsplash (.response 401 ⟨[⟨"u", "t"⟩]⟩) 2 = []) ∧
    ((429 : Nat) ≠ 200 ∧
      fetch_from_pexels (.response 429 ⟨[⟨"l", "m", "p"⟩]⟩) 2 = []) ∧
    fetch_from_unsplash
      (.response 200 ⟨[⟨"u1", "t1"⟩, ⟨"u2", "t2"⟩, ⟨"u3", "t3"⟩]⟩) 2 =
      (([⟨"u1", "t1"⟩, ⟨"u2", "t2"⟩, ⟨"u3", "t3"⟩] :
        List UnsplashPhoto).map UnsplashPhoto.regular).take 2 ∧
    (fetch_from_unsplash
      (.response 200 ⟨[⟨"u1", "t1"⟩, ⟨"u2", "t2"⟩, ⟨"u3", "t3"⟩]⟩) 2).length
      ≤ 2 :=
  ⟨⟨by decide, (c5_adapter_absorbs_errors 2).1 403 ⟨[⟨"u", "t"⟩]⟩
      (by decide)⟩,
   ⟨by decide, (c5_adapter_absorbs_errors 2).1 401 ⟨[⟨"u", "t"⟩]⟩
      (by decide)⟩,
   ⟨by decide, (c5_adapter_absorbs_errors 2).2.2.2.2.1 429 ⟨[⟨"l", "m", "p"⟩]⟩
      (by decide)⟩,
   ((c5_adapter_absorbs_errors 2).2.2.2.1
      ⟨[⟨"u1", "t1"⟩, ⟨"u2", "t2"⟩, ⟨"u3", "t3"⟩]⟩).1,
   ((c5_adapter_absorbs_errors 2).2.2.2.1
      ⟨[⟨"u1", "t1"⟩, ⟨"u2", "t2"⟩, ⟨"u3", "t3"⟩]⟩).2⟩

/-! Claim C8. -/

/-- C8: the query builders are deterministic pure functions of the record.
The destination query is name, location and a settlement-type hint --
"beach" for beach or island, "resort" for resort, "travel" otherwise --
joined by single spaces with empty fields skipped; the activity query is
the title concatenated with the destination name for Sightseeing, Culture
and Nature, and the title alone otherwise. -/
theorem c8_query_builders :
    (∀ (r : DestRecord) (name location st : String),
        r.name = some name → r.location = some location →
        r.settlement_type = some st →
        build_destination_search_query r =
          (if name = "" then "" else name ++ " ") ++
          (if location = "" then "" else location ++ " ") ++
          (if st = "beach" ∨ st = "island" then "beach"
           else if st = "resort" then "resort" else "travel")) ∧
    (∀ r₁ r₂ : DestRecord, r₁.name = r₂.name → r₁.location = r₂.location →
        r₁.settlement_type = r₂.settlement_type →
        build_destination_search_query r₁ =
          build_destination_search_query r₂) ∧
    (∀ (a : ActivityRecord) (title dest cat : String),
        a.title = some title → a.destination = some dest →
        a.category = some cat →
        ((cat = "Sightseeing" ∨ cat = "Culture" ∨ cat = "Nature") →
          build_activity_search_query a = title ++ " " ++ dest) ∧
        (cat ≠ "Sightseeing" → cat ≠ "Culture" → cat ≠ "Nature" →
          build_activity_search_query a = title)) ∧
    (∀ a₁ a₂ : ActivityRecord, a₁.title = a₂.title →
        a₁.destination = a₂.destination → a₁.category = a₂.category →
        build_activity_search_query a₁ = build_activity_search_query a₂) := by
  refine ⟨?_, ?_, ?_, ?_⟩
  · intro r name location st h1 h2 h3
    unfold build_destination_search_query
    rw [h1, h2, h3]
    simp only [Option.getD_some]
    have hhint : (if st = "beach" ∨ st = "island" then "beach"
        else if st = "resort" then "resort" else "travel") ≠ "" := by
      split_ifs <;> decide
    have hhintb : ((if st = "beach" ∨ st = "island" then "beach"
        else if st = "resort" then "resort" else "travel") == "") = false :=
      beq_eq_false_iff_ne.mpr hhint
    by_cases hn : name = ""
    · by_cases hl : location = ""
      · subst hn hl
        simp [List.filter_cons, hhintb, joinSpace]
      · have hlb : (location == "") = false := beq_eq_false_iff_ne.mpr hl
        subst hn
        simp [List.filter_cons, hlb, hhintb, joinSpace, hl]
    · have hnb : (name == "") = false := beq_eq_false_iff_ne.mpr hn
      by_cases hl : location = ""
      · subst hl
        simp [List.filter_cons, hnb, hhintb, joinSpace, hn,
          String.append_assoc]
      · have hlb : (location == "") = false := beq_eq_false_iff_ne.mpr hl
        simp [List.filter_cons, hnb, hlb, hhintb, joinSpace, hn, hl,
          String.append_assoc]
  · intro r₁ r₂ h1 h2 h3
    unfold build_destination_search_query
    rw [h1, h2, h3]
  · intro a title dest cat h1 h2 h3
    constructor
    · intro hcat
      unfold build_activity_search_query
      rw [h1, h2, h3]
      simp only [Option.getD_some]
      rw [if_pos hcat]
    · intro hc1 hc2 hc3
      unfold build_activity_search_query
      rw [h1, h3]
      simp only [Option.getD_some]
      rw [if_neg (by tauto)]
  · intro a₁ a₂ h1 h2 h3
    unfold build_activity_search_query
    rw [h1, h2, h3]

/-- C8 witness: the builders on the spec's concrete Paris, Bali and Eiffel
Tower records. -/
theorem c8_query_builders_witness :
    build_destination_search_query
      { name := some "Paris", location := some "France",
        settlement_type := some "city" } = "Paris France travel" ∧
    build_destination_search_query
      { name := some "Bali", location := some "",
        settlement_type := some "island" } = "Bali beach" ∧
    build_activity_search_query
      { title := some "Eiffel Tower", destination := some "Paris",
        category := some "Sightseeing" } = "Eiffel Tower Paris" ∧
    build_activity_search_query
      { title := some "Dinner", destination := some "Paris",
        category := some "Dining" } = "Dinner" := by
  refine ⟨?_, ?_, ?_, ?_⟩
  · have := c8_query_builders.1
      { name := some "Paris", location := some "France",
        settlement_type := some "city" } "Paris" "France" "city"
      rfl rfl rfl
    rw [this]
    decide
  · have := c8_query_builders.1
      { name := some "Bali", location := some "",
        settlement_type := some "island" } "Bali" "" "island"
      rfl rfl rfl
    rw [this]
    decide
  · have := (c8_query_builders.2.2.1
      { title := some "Eiffel Tower", destination := some "Paris",
        category := some "Sightseeing" } "Eiffel Tower" "Paris" "Sightseeing"
      rfl rfl rfl).1 (by tauto)
    rw [this]
    decide
  · exact (c8_query_builders.2.2.1
      { title := some "Dinner", destination := some "Paris",
        category := some "Dining" } "Dinner" "Paris" "Dining"
      rfl rfl rfl).2 (by decide) (by decide) (by decide)

/-! Claim C1. -/

/-- On a cache miss the per-query fetch reduces to the provider fallback
chain over the post-lookup cache. -/
theorem fetch_responds_miss (uc pc : Bool) (u : HttpOutcome UnsplashBody)
    (p : HttpOutcome PexelsBody) (cache : Cache) (q : String)
    (count now : Nat)
    (hmiss : (get_from_cache cache (image_cache_key q count) now
      cache_ttl).1.getD [] = []) :
    fetch_images_for_query_responds uc pc u p cache q count now =
      (if uc then
        (if (fetch_from_unsplash u count).isEmpty then
          (if pc then
            (if (fetch_from_pexels p count).isEmpty then
              (generate_placeholder_images q count,
               (get_from_cache cache (image_cache_key q count) now
                 cache_ttl).2)
             else (fetch_from_pexels p count,
               save_to_cache
                 (get_from_cache cache (image_cache_key q count) now
                   cache_ttl).2
                 (image_cache_key q count) (fetch_from_pexels p count) now))
           else (generate_placeholder_images q count,
             (get_from_cache cache (image_cache_key q count) now
               cache_ttl).2))
         else (fetch_from_unsplash u count,
           save_to_cache
             (get_from_cache cache (image_cache_key q count) now cache_ttl).2
             (image_cache_key q count) (fetch_from_unsplash u count) now))
       else
        (if pc then
          (if (fetch_from_pexels p count).isEmpty then
            (generate_placeholder_images q count,
             (get_from_cache cache (image_cache_key q count) now cache_ttl).2)
           else (fetch_from_pexels p count,
             save_to_cache
               (get_from_cache cache (image_cache_key q count) now
                 cache_ttl).2
               (image_cache_key q count) (fetch_from_pexels p count) now))
         else (generate_placeholder_images q count,
           (get_from_cache cache (image_cache_key q count) now
             cache_ttl).2))) := by
  simp only [fetch_images_for_query_responds, hmiss, List.isEmpty_nil,
    if_true]

/-- C1: on a cache miss, the per-query fetch tries Unsplash first and, if
non-empty, caches and returns it; otherwise tries Pexels and, if
non-empty, caches and returns it; a provider without credentials is
skipped without its call influencing the result; if both yield nothing
the fetch returns exactly `count` placeholder URLs embedding the query
text, and they are not stored in the cache. -/
theorem c1_per_query_fallback (env : ServiceEnv) (cache : Cache)
    (q : String) (count now : Nat) (u : HttpOutcome UnsplashBody)
    (p : HttpOutcome PexelsBody) (hnet : env.net q = .responds u p)
    (hmiss : (get_from_cache cache (image_cache_key q count) now
      cache_ttl).1 = none) :
    (env.unsplashCreds = true → fetch_from_unsplash u count ≠ [] →
      fetch_images_for_query env cache q count now =
        .ok (fetch_from_unsplash u count,
          save_to_cache
            (get_from_cache cache (image_cache_key q count) now cache_ttl).2
            (image_cache_key q count) (fetch_from_unsplash u count) now)) ∧
    ((env.unsplashCreds = false ∨ fetch_from_unsplash u count = []) →
      env.pexelsCreds = true → fetch_from_pexels p count ≠ [] →
      fetch_images_for_query env cache q count now =
        .ok (fetch_from_pexels p count,
          save_to_cache
            (get_from_cache cache (image_cache_key q count) now cache_ttl).2
            (image_cache_key q count) (fetch_from_pexels p count) now)) ∧
    ((env.unsplashCreds = false ∨ fetch_from_unsplash u count = []) →
      (env.pexelsCreds = false ∨ fetch_from_pexels p count = []) →
      fetch_images_for_query env cache q count now =
        .ok (generate_placeholder_images q count,
          (get_from_cache cache (image_cache_key q count) now cache_ttl).2) ∧
      (generate_placeholder_images q count).length = count ∧
      (∀ url ∈ generate_placeholder_images q count,
        url = "https://via.placeholder.com/800x600/3B82F6/FFFFFF?text=" ++
          q.replace " " "+") ∧
      cacheLookup
        (get_from_cache cache (image_cache_key q count) now cache_ttl).2
        (image_cache_key q count) = none) ∧
    (env.unsplashCreds = false →
      ∀ u' : HttpOutcome UnsplashBody,
        fetch_images_for_query_responds false env.pexelsCreds u' p cache
          q count now =
        fetch_images_for_query_responds false env.pexelsCreds u p cache
          q count now) ∧
    (env.pexelsCreds = false →
      ∀ p' : HttpOutcome PexelsBody,
        fetch_images_for_query_responds env.unsplashCreds false u p' cache
          q count now =
        fetch_images_for_query_responds env.unsplashCreds false u p cache
          q count now) := by
  have hfq : fetch_images_for_query env cache q count now =
      .ok (fetch_images_for_query_responds env.unsplashCreds env.pexelsCreds
        u p cache q count now) := by
    unfold fetch_images_for_query
    rw [hnet]
  have hmiss' : (get_from_cache cache (image_cache_key q count) now
      cache_ttl).1.getD [] = [] := by
    rw [hmiss]
    rfl
  refine ⟨?_, ?_, ?_, ?_, ?_⟩
  · intro huc hne
    rw [hfq, fetch_responds_miss _ _ _ _ _ _ _ _ hmiss', huc, if_pos rfl,
      if_neg (by simpa using hne)]
  · intro hu hpc hne
    rw [hfq, fetch_responds_miss _ _ _ _ _ _ _ _ hmiss', hpc]
    rcases hu with hu | hu
    · rw [hu]
      rw [if_neg (by simp), if_pos rfl, if_neg (by simpa using hne)]
    · cases huc : env.unsplashCreds
      · rw [if_neg (by simp), if_pos rfl, if_neg (by simpa using hne)]
      · rw [if_pos rfl, if_pos (by simp [hu]), if_pos rfl,
          if_neg (by simpa using hne)]
  · intro hu hp
    have hplaceholder : fetch_images_for_query env cache q count now =
        .ok (generate_placeholder_images q count,
          (get_from_cache cache (image_cache_key q count) now
            cache_ttl).2) := by
      rw [hfq, fetch_responds_miss _ _ _ _ _ _ _ _ hmiss']
      rcases hu with hu | hu <;> rcases hp with hp | hp
      · rw [hu, hp]
        rw [if_neg (by simp), if_neg (by simp)]
      · rw [hu]
        cases hpc : env.pexelsCreds
        · rw [if_neg (by simp), if_neg (by simp)]
        · rw [if_neg (by simp), if_pos rfl, if_pos (by simp [hp])]
      · rw [hp]
        cases huc : env.unsplashCreds
        · rw [if_neg (by simp), if_neg (by simp)]
        · rw [if_pos rfl, if_pos (by simp [hu]), if_neg (by simp)]
      · cases huc : env.unsplashCreds <;> cases hpc : env.pexelsCreds
        · rw [if_neg (by simp), if_neg (by simp)]
        · rw [if_neg (by simp), if_pos rfl, if_pos (by simp [hp])]
        · rw [if_pos rfl, if_pos (by simp [hu]), if_neg (by simp)]
        · rw [if_pos rfl, if_pos (by simp [hu]), if_pos rfl,
            if_pos (by simp [hp])]
    refine ⟨hplaceholder, by simp [generate_placeholder_images], ?_, ?_⟩
    · intro url hurl
      unfold generate_placeholder_images at hurl
      exact List.eq_of_mem_replicate hurl
    · exact get_from_cache_none_lookup cache (image_cache_key q count) now
        cache_ttl hmiss
  · intro huc u'
    rw [fetch_responds_miss _ _ _ _ _ _ _ _ hmiss',
      fetch_responds_miss _ _ _ _ _ _ _ _ hmiss']
    exact rfl
  · intro hpc p'
    rw [fetch_responds_miss _ _ _ _ _ _ _ _ hmiss',
      fetch_responds_miss _ _ _ _ _ _ _ _ hmiss']
    exact rfl

/-- A service with Unsplash credentials only, answering every query with a
two-photo success. -/
def envUnsplashOnly : ServiceEnv :=
  ⟨true, false,
   fun _ => .responds (.response 200 ⟨[⟨"u1", "t1"⟩, ⟨"u2", "t2"⟩]⟩) .exn⟩

/-- A service with no credentials at all. -/
def envNoCreds : ServiceEnv := ⟨false, false, fun _ => .responds .exn .exn⟩

/-- C1 witness: on an empty cache the Unsplash-credentialed service caches
and returns the Unsplash URLs, and the credential-less service falls back
to exactly four placeholders, cached under no key. -/
theorem c1_per_query_fallback_witness :
    (envUnsplashOnly.net "Paris" =
        .responds (.response 200 ⟨[⟨"u1", "t1"⟩, ⟨"u2", "t2"⟩]⟩) .exn ∧
      (get_from_cache [] (image_cache_key "Paris" 2) 0 cache_ttl).1 = none ∧
      envUnsplashOnly.unsplashCreds = true ∧
      fetch_from_unsplash
        (.response 200 ⟨[⟨"u1", "t1"⟩, ⟨"u2", "t2"⟩]⟩) 2 ≠ [] ∧
      fetch_images_for_query envUnsplashOnly [] "Paris" 2 0 =
        .ok (fetch_from_unsplash
              (.response 200 ⟨[⟨"u1", "t1"⟩, ⟨"u2", "t2"⟩]⟩) 2,
          save_to_cache
            (get_from_cache [] (image_cache_key "Paris" 2) 0 cache_ttl).2
            (image_cache_key "Paris" 2)
            (fetch_from_unsplash
              (.response 200 ⟨[⟨"u1", "t1"⟩, ⟨"u2", "t2"⟩]⟩) 2) 0)) ∧
    (envNoCreds.net "Atlantis Nowhere" = .responds .exn .exn ∧
      (get_from_cache [] (image_cache_key "Atlantis Nowhere" 4) 0
        cache_ttl).1 = none ∧
      (fetch_images_for_query envNoCreds [] "Atlantis Nowhere" 4 0 =
          .ok (generate_placeholder_images "Atlantis Nowhere" 4,
            (get_from_cache [] (image_cache_key "Atlantis Nowhere" 4) 0
              cache_ttl).2) ∧
        (generate_placeholder_images "Atlantis Nowhere" 4).length = 4 ∧
        (∀ url ∈ generate_placeholder_images "Atlantis Nowhere" 4,
          url =
            "https://via.placeholder.com/800x600/3B82F6/FFFFFF?text=" ++
              ("Atlantis Nowhere").replace " " "+") ∧
        cacheLookup
          (get_from_cache [] (image_cache_key "Atlantis Nowhere" 4) 0
            cache_ttl).2
          (image_cache_key "Atlantis Nowhere" 4) = none)) :=
  ⟨⟨rfl, rfl, rfl, by decide,
    (c1_per_query_fallback envUnsplashOnly [] "Paris" 2 0 _ _ rfl rfl).1
      rfl (by decide)⟩,
   ⟨rfl, rfl,
    (c1_per_query_fallback envNoCreds [] "Atlantis Nowhere" 4 0 _ _ rfl
      rfl).2.2.1 (Or.inl rfl) (Or.inl rfl)⟩⟩

/-! Claim C7. -/

/-- C7 as stated is false: the separators in the cache key are underscores,
not colons.  A credential-less fetch against a cache holding the colon key
ignores that entry, while the same fetch against the underscore key
returns it. -/
theorem c7_cache_key_counterexample :
    image_cache_key "Paris" 4 ≠ "images:" ++ "Paris" ++ ":" ++ toString 4 ∧
    (fetch_images_for_query_responds false false .exn .exn
      [⟨"images:Paris:4", ["u"], 0⟩] "Paris" 4 0).1 ≠ ["u"] ∧
    (fetch_images_for_query_responds false false .exn .exn
      [⟨"images_Paris_4", ["u"], 0⟩] "Paris" 4 0).1 = ["u"] := by
  refine ⟨by decide, by decide, rfl⟩

/-- C7 (amended): the per-query fetch performs its cache lookup, and any
subsequent store, under the key `"images_" + q + "_" + c` (underscore
separators). -/
theorem c7_cache_key_underscores (uc pc : Bool) (u : HttpOutcome UnsplashBody)
    (p : HttpOutcome PexelsBody) (cache : Cache) (q : String)
    (count now : Nat) :
    image_cache_key q count = "images_" ++ q ++ "_" ++ toString count ∧
    (∀ (v : List String) (cache1 : Cache),
        get_from_cache cache (image_cache_key q count) now cache_ttl =
          (some v, cache1) →
        v ≠ [] →
        fetch_images_for_query_responds uc pc u p cache q count now =
          (v, cache1)) ∧
    (∃ w : Option (List String),
        fetch_images_for_query_responds uc pc u p cache q count now =
          ((fetch_images_for_query_responds uc pc u p cache q count now).1,
            match w with
            | none =>
                (get_from_cache cache (image_cache_key q count) now
                  cache_ttl).2
            | some imgs =>
                save_to_cache
                  (get_from_cache cache (image_cache_key q count) now
                    cache_ttl).2
                  (image_cache_key q count) imgs now)) := by
  refine ⟨rfl, ?_, ?_⟩
  · intro v cache1 hget hv
    simp only [fetch_images_for_query_responds, hget, Option.getD_some]
    rw [if_neg (by simp [hv])]
  · by_cases hemp : ((get_from_cache cache (image_cache_key q count) now
        cache_ttl).1.getD []).isEmpty = true
    · rw [fetch_responds_miss uc pc u p cache q count now
        (List.isEmpty_iff.mp hemp)]
      by_cases huc : uc
      · rw [if_pos huc]
        by_cases hue : (fetch_from_unsplash u count).isEmpty = true
        · rw [if_pos hue]
          by_cases hpc : pc
          · rw [if_pos hpc]
            by_cases hpe : (fetch_from_pexels p count).isEmpty = true
            · rw [if_pos hpe]
              exact ⟨none, rfl⟩
            · rw [if_neg hpe]
              exact ⟨some (fetch_from_pexels p count), rfl⟩
          · rw [if_neg hpc]
            exact ⟨none, rfl⟩
        · rw [if_neg hue]
          exact ⟨some (fetch_from_unsplash u count), rfl⟩
      · rw [if_neg huc]
        by_cases hpc : pc
        · rw [if_pos hpc]
          by_cases hpe : (fetch_from_pexels p count).isEmpty = true
          · rw [if_pos hpe]
            exact ⟨none, rfl⟩
          · rw [if_neg hpe]
            exact ⟨some (fetch_from_pexels p count), rfl⟩
        · rw [if_neg hpc]
          exact ⟨none, rfl⟩
    · refine ⟨none, ?_⟩
      simp only [fetch_images_for_query_responds]
      rw [if_neg hemp]

/-- C7 witness: a cache hit under the underscore key at count 3. -/
theorem c7_cache_key_underscores_witness :
    get_from_cache [⟨"images_Q_3", ["a"], 0⟩] (image_cache_key "Q" 3) 0
      cache_ttl = (some ["a"], [⟨"images_Q_3", ["a"], 0⟩]) ∧
    (["a"] : List String) ≠ [] ∧
    fetch_images_for_query_responds false false .exn .exn
      [⟨"images_Q_3", ["a"], 0⟩] "Q" 3 0 =
      (["a"], [⟨"images_Q_3", ["a"], 0⟩]) :=
  ⟨by decide, by decide,
   (c7_cache_key_underscores false false .exn .exn
      [⟨"images_Q_3", ["a"], 0⟩] "Q" 3 0).2.1 ["a"]
     [⟨"images_Q_3", ["a"], 0⟩] (by decide) (by decide)⟩

/-! Claim C2. -/

theorem map_eraseIdx {α β : Type} (f : α → β) :
    ∀ (l : List α) (i : Nat), (l.eraseIdx i).map f = (l.map f).eraseIdx i
  | [], _ => by simp [List.eraseIdx]
  | _ :: _, 0 => by simp [List.eraseIdx]
  | x :: xs, (i + 1) => by
      simp only [List.eraseIdx, List.map_cons]
      rw [map_eraseIdx f xs i]

/-- C2: the batch result always has the same length and order as the input
query list; a query whose per-query task raises contributes an empty list
in its slot; and removing any one query from the batch leaves every other
query's result exactly as it was. -/
theorem c2_batch_isolation (env : ServiceEnv) (cache : Cache)
    (count now : Nat) :
    (∀ queries : List String,
        (batch_fetch_images env cache queries count now).length =
          queries.length) ∧
    (∀ (queries : List String) (i : Nat) (q : String),
        queries[i]? = some q →
        fetch_images_for_query env cache q count now = .error () →
        (batch_fetch_images env cache queries count now)[i]? = some []) ∧
    (∀ (queries : List String) (i : Nat),
        batch_fetch_images env cache (queries.eraseIdx i) count now =
          (batch_fetch_images env cache queries count now).eraseIdx i) := by
  refine ⟨?_, ?_, ?_⟩
  · intro queries
    exact List.length_map queries _
  · intro queries i q hq herr
    unfold batch_fetch_images
    rw [List.getElem?_map, hq]
    simp [herr]
  · intro queries i
    exact map_eraseIdx _ queries i

/-- A service instance that raises on query "B" only. -/
def envThrowsOnB : ServiceEnv :=
  ⟨false, false, fun q => if q == "B" then .throws else .responds .exn .exn⟩

/-- C2 witness: in the batch ["A", "B", "C"] where only "B" raises, slot 1
is the empty list, and erasing "B" leaves the sibling results untouched. -/
theorem c2_batch_isolation_witness :
    (["A", "B", "C"] : List String)[1]? = some "B" ∧
    fetch_images_for_query envThrowsOnB [] "B" 2 0 = .error () ∧
    (batch_fetch_images envThrowsOnB [] ["A", "B", "C"] 2 0)[1]? =
      some [] ∧
    batch_fetch_images envThrowsOnB [] (["A", "B", "C"].eraseIdx 1) 2 0 =
      (batch_fetch_images envThrowsOnB [] ["A", "B", "C"] 2 0).eraseIdx 1 :=
  ⟨rfl, rfl,
   (c2_batch_isolation envThrowsOnB [] 2 0).2.1 ["A", "B", "C"] 1 "B"
     rfl rfl,
   (c2_batch_isolation envThrowsOnB [] 2 0).2.2 ["A", "B", "C"] 1⟩

/-! Claim C3. -/

theorem attach_dest_images_length :
    ∀ (rs : List DestRecord) (imgs : List (List String)),
      (attach_dest_images rs imgs).length = rs.length
  | [], _ => rfl
  | r :: rs, imgs => by
      simp only [attach_dest_images, List.length_cons,
        attach_dest_images_length rs imgs.tail]

theorem attach_dest_images_getElem? :
    ∀ (rs : List DestRecord) (imgs : List (List String)) (i : Nat),
      (attach_dest_images rs imgs)[i]? =
        (rs[i]?).map (fun r => set_dest_images r ((imgs[i]?).getD []))
  | [], imgs, i => by simp [attach_dest_images]
  | r :: rs, imgs, 0 => by
      cases imgs <;> simp [attach_dest_images]
  | r :: rs, imgs, (i + 1) => by
      cases imgs with
      | nil =>
          simp only [attach_dest_images, List.getElem?_cons_succ,
            List.tail_nil]
          rw [attach_dest_images_getElem? rs [] i]
          simp
      | cons l ls =>
          simp only [attach_dest_images, List.getElem?_cons_succ,
            List.tail_cons]
          rw [attach_dest_images_getElem? rs ls i]

theorem attach_activity_images_length :
    ∀ (as_ : List ActivityRecord) (imgs : List (List String)),
      (attach_activity_images as_ imgs).length = as_.length
  | [], _ => rfl
  | a :: as_, imgs => by
      simp only [attach_activity_images, List.length_cons,
        attach_activity_images_length as_ imgs.tail]

theorem attach_activity_images_getElem? :
    ∀ (as_ : List ActivityRecord) (imgs : List (List String)) (i : Nat),
      (attach_activity_images as_ imgs)[i]? =
        (as_[i]?).map (fun a => set_activity_images a ((imgs[i]?).getD []))
  | [], imgs, i => by simp [attach_activity_images]
  | a :: as_, imgs, 0 => by
      cases imgs <;> simp [attach_activity_images]
  | a :: as_, imgs, (i + 1) => by
      cases imgs with
      | nil =>
          simp only [attach_activity_images, List.getElem?_cons_succ,
            List.tail_nil]
          rw [attach_activity_images_getElem? as_ [] i]
          simp
      | cons l ls =>
          simp only [attach_activity_images, List.getElem?_cons_succ,
            List.tail_cons]
          rw [attach_activity_images_getElem? as_ ls i]

theorem enhance_dest_eq_attach (env : ServiceEnv) (cache : Cache)
    (recs : List DestRecord) (k now : Nat) :
    enhance_destinations_with_images env cache recs k now =
      attach_dest_images recs
        (batch_fetch_images env cache
          (recs.map build_destination_search_query) k now) := by
  cases recs with
  | nil => rfl
  | cons r rs => rfl

theorem enhance_activities_eq_attach (env : ServiceEnv) (cache : Cache)
    (acts : List ActivityRecord) (k now : Nat) :
    enhance_trip_activities_with_images env cache acts k now =
      attach_activity_images acts
        (batch_fetch_images env cache
          (acts.map build_activity_search_query) k now) := by
  cases acts with
  | nil => rfl
  | cons a as_ => rfl

/-- C3: both enrichment entry points return a list of the same length with
the records in the same order (their identity fields untouched,
position by position); on an empty input they return the input unchanged,
independently of the providers, the cache and the clock. -/
theorem c3_enrichment_shape (env : ServiceEnv) (cache : Cache) (now : Nat) :
    (∀ (recs : List DestRecord) (k : Nat),
        (enhance_destinations_with_images env cache recs k now).length =
          recs.length) ∧
    (∀ (recs : List DestRecord) (k i : Nat),
        ((enhance_destinations_with_images env cache recs k now)[i]?).map
            (fun r => (r.name, r.location, r.settlement_type, r.title)) =
          (recs[i]?).map
            (fun r => (r.name, r.location, r.settlement_type, r.title))) ∧
    (∀ k : Nat,
        enhance_destinations_with_images env cache [] k now = []) ∧
    (∀ (env' : ServiceEnv) (cache' : Cache) (now' k : Nat),
        enhance_destinations_with_images env cache [] k now =
          enhance_destinations_with_images env' cache' [] k now') ∧
    (∀ (acts : List ActivityRecord) (k : Nat),
        (enhance_trip_activities_with_images env cache acts k now).length =
          acts.length) ∧
    (∀ (acts : List ActivityRecord) (k i : Nat),
        ((enhance_trip_activities_with_images env cache acts k now)[i]?).map
            (fun a => (a.title, a.destination, a.category)) =
          (acts[i]?).map (fun a => (a.title, a.destination, a.category))) ∧
    (∀ k : Nat,
        enhance_trip_activities_with_images env cache [] k now = []) ∧
    (∀ (env' : ServiceEnv) (cache' : Cache) (now' k : Nat),
        enhance_trip_activities_with_images env cache [] k now =
          enhance_trip_activities_with_images env' cache' [] k now') := by
  refine ⟨?_, ?_, fun _ => rfl, fun _ _ _ _ => rfl, ?_, ?_,
    fun _ => rfl, fun _ _ _ _ => rfl⟩
  · intro recs k
    rw [enhance_dest_eq_attach]
    exact attach_dest_images_length recs _
  · intro recs k i
    rw [enhance_dest_eq_attach, attach_dest_images_getElem?]
    cases recs[i]? with
    | none => rfl
    | some r => simp [set_dest_images]
  · intro acts k
    rw [enhance_activities_eq_attach]
    exact attach_activity_images_length acts _
  · intro acts k i
    rw [enhance_activities_eq_attach, attach_activity_images_getElem?]
    cases acts[i]? with
    | none => rfl
    | some a => simp [set_activity_images]

/-! Claim C4. -/

theorem fetch_from_unsplash_length (u : HttpOutcome UnsplashBody)
    (count : Nat) : (fetch_from_unsplash u count).length ≤ count := by
  cases u with
  | response s b =>
      by_cases hs : s = 200
      · simp only [fetch_from_unsplash, if_pos hs]
        exact List.length_take_le count _
      · simp only [fetch_from_unsplash, if_neg hs]
        simp
  | timeout => simp [fetch_from_unsplash]
  | exn => simp [fetch_from_unsplash]

theorem fetch_from_pexels_length (p : HttpOutcome PexelsBody)
    (count : Nat) : (fetch_from_pexels p count).length ≤ count := by
  cases p with
  | response s b =>
      by_cases hs : s = 200
      · simp only [fetch_from_pexels, if_pos hs]
        exact List.length_take_le count _
      · simp only [fetch_from_pexels, if_neg hs]
        simp
  | timeout => simp [fetch_from_pexels]
  | exn => simp [fetch_from_pexels]

/-- If every cache value stored under this query's key holds at most
`count` URLs, the per-query fetch returns at most `count` URLs. -/
theorem fetch_responds_length_le (uc pc : Bool) (u : HttpOutcome UnsplashBody)
    (p : HttpOutcome PexelsBody) (cache : Cache) (q : String)
    (count now : Nat)
    (hw : ∀ e ∈ cache, e.key = image_cache_key q count →
      e.value.length ≤ count) :
    (fetch_images_for_query_responds uc pc u p cache q count now).1.length
      ≤ count := by
  by_cases hemp : ((get_from_cache cache (image_cache_key q count) now
      cache_ttl).1.getD []).isEmpty = true
  · rw [fetch_responds_miss uc pc u p cache q count now
      (List.isEmpty_iff.mp hemp)]
    split_ifs <;>
      first
        | exact fetch_from_unsplash_length u count
        | exact fetch_from_pexels_length p count
        | simp [generate_placeholder_images]
  · cases hv : (get_from_cache cache (image_cache_key q count) now
        cache_ttl).1 with
    | none =>
        rw [hv] at hemp
        exact absurd rfl hemp
    | some v =>
        rcases get_from_cache_some cache (image_cache_key q count) now
          cache_ttl v hv with ⟨e, hfind, hval, hkey, -⟩
        have hle : v.length ≤ count := by
          rw [← hval]
          exact hw e (List.mem_of_find?_eq_some hfind) hkey
        rw [hv] at hemp
        simp only [fetch_images_for_query_responds, hv, Option.getD_some]
        rw [if_neg (by simpa using hemp)]
        exact hle

/-- Every slot of the batch result holds at most `count` URLs, given a
cache whose values under this batch's keys are within bound. -/
theorem batch_fetch_length_le (env : ServiceEnv) (cache : Cache)
    (queries : List String) (count now i : Nat)
    (hw : ∀ e ∈ cache, ∀ q : String, e.key = image_cache_key q count →
      e.value.length ≤ count) :
    (((batch_fetch_images env cache queries count now)[i]?).getD []).length
      ≤ count := by
  unfold batch_fetch_images
  rw [List.getElem?_map]
  cases hq : queries[i]? with
  | none => exact Nat.zero_le count
  | some q =>
      simp only [Option.map_some', Option.getD_some]
      cases hnet : env.net q with
      | throws =>
          simp [fetch_images_for_query, hnet]
      | responds u p =>
          simp only [fetch_images_for_query, hnet]
          exact fetch_responds_length_le env.unsplashCreds env.pexelsCreds
            u p cache q count now (fun e he => hw e he q)

/-- The number of populated destination image slots. -/
def destPopulatedSlots (r : DestRecord) : Nat :=
  ([r.image, r.image2, r.image3, r.image4].filter Option.isSome).length

theorem destPopulatedSlots_set (r : DestRecord) (l : List String) :
    destPopulatedSlots (set_dest_images r l) = min l.length 4 := by
  match l with
  | [] => rfl
  | [a] => rfl
  | [a, b] => rfl
  | [a, b, c] => rfl
  | a :: b :: c :: d :: rest =>
      have h4 : destPopulatedSlots
          (set_dest_images r (a :: b :: c :: d :: rest)) = 4 := by
        simp [destPopulatedSlots, set_dest_images]
      rw [h4, Nat.min_eq_right (by simp only [List.length_cons]; omega)]

/-- The URL list the batch fetch produced for slot `i`, as read back by
the enumeration loops (`all_images[i] if i < len(all_images) else []`). -/
def foundImages (env : ServiceEnv) (cache : Cache) (queries : List String)
    (k now i : Nat) : List String :=
  ((batch_fetch_images env cache queries k now)[i]?).getD []

/-- C4 (amended): with `found` the URL list the batch fetch produced for a
record's query, `found` never exceeds the requested count `k`; an enriched
destination record populates exactly `min (min k found.length) 4` of its
four named slots, slot `j` holding exactly the `j`-th found URL (no URL is
recycled to fill gaps) and the rest left null; an enriched activity record
stores all `min k found.length` found URLs in order plus the first as
cover image. -/
theorem c4_slot_fill (env : ServiceEnv) (cache : Cache) (k now : Nat)
    (hw : ∀ e ∈ cache, ∀ q : String, e.key = image_cache_key q k →
      e.value.length ≤ k) :
    (∀ (recs : List DestRecord) (i : Nat) (r : DestRecord),
        recs[i]? = some r →
        let found := foundImages env cache
          (recs.map build_destination_search_query) k now i
        found.length ≤ k ∧
        ((enhance_destinations_with_images env cache recs k now)[i]?).map
            destPopulatedSlots = some (min (min k found.length) 4) ∧
        ((enhance_destinations_with_images env cache recs k now)[i]?).map
            DestRecord.image = some found[0]? ∧
        ((enhance_destinations_with_images env cache recs k now)[i]?).map
            DestRecord.image2 = some found[1]? ∧
        ((enhance_destinations_with_images env cache recs k now)[i]?).map
            DestRecord.image3 = some found[2]? ∧
        ((enhance_destinations_with_images env cache recs k now)[i]?).map
            DestRecord.image4 = some found[3]?) ∧
    (∀ (acts : List ActivityRecord) (i : Nat) (a : ActivityRecord),
        acts[i]? = some a →
        let found := foundImages env cache
          (acts.map build_activity_search_query) k now i
        found.length ≤ k ∧
        ((enhance_trip_activities_with_images env cache acts k now)[i]?).map
            (fun x => x.images.length) = some (min k found.length) ∧
        ((enhance_trip_activities_with_images env cache acts k now)[i]?).map
            ActivityRecord.images = some found ∧
        ((enhance_trip_activities_with_images env cache acts k now)[i]?).map
            ActivityRecord.coverImage = some found[0]?) := by
  constructor
  · intro recs i r hr
    intro found
    have hfe : found = ((batch_fetch_images env cache
        (recs.map build_destination_search_query) k now)[i]?).getD [] := rfl
    have hlen : (((batch_fetch_images env cache
        (recs.map build_destination_search_query) k now)[i]?).getD
          []).length ≤ k :=
      batch_fetch_length_le env cache _ k now i hw
    have henh := enhance_dest_eq_attach env cache recs k now
    have hat := attach_dest_images_getElem? recs
      (batch_fetch_images env cache
        (recs.map build_destination_search_query) k now) i
    refine ⟨by rw [hfe]; exact hlen, ?_, ?_, ?_, ?_, ?_⟩
    · rw [henh, hat, hr, hfe]
      simp only [Option.map_some', destPopulatedSlots_set]
      rw [Nat.min_eq_right hlen]
    · rw [henh, hat, hr, hfe]
      simp [set_dest_images]
    · rw [henh, hat, hr, hfe]
      simp [set_dest_images]
    · rw [henh, hat, hr, hfe]
      simp [set_dest_images]
    · rw [henh, hat, hr, hfe]
      simp [set_dest_images]
  · intro acts i a ha
    intro found
    have hfe : found = ((batch_fetch_images env cache
        (acts.map build_activity_search_query) k now)[i]?).getD [] := rfl
    have hlen : (((batch_fetch_images env cache
        (acts.map build_activity_search_query) k now)[i]?).getD
          []).length ≤ k :=
      batch_fetch_length_le env cache _ k now i hw
    have henh := enhance_activities_eq_attach env cache acts k now
    have hat := attach_activity_images_getElem? acts
      (batch_fetch_images env cache
        (acts.map build_activity_search_query) k now) i
    refine ⟨by rw [hfe]; exact hlen, ?_, ?_, ?_⟩
    · rw [henh, hat, ha, hfe]
      simp only [Option.map_some']
      rw [Nat.min_eq_right hlen]
      simp [set_activity_images]
    · rw [henh, hat, ha, hfe]
      simp [set_activity_images]
    · rw [henh, hat, ha, hfe]
      simp [set_activity_images]

/-- The spec's concrete Paris record. -/
def parisRecord : DestRecord :=
  { name := some "Paris", location := some "France",
    settlement_type := some "city" }

/-- A service whose primary provider returns five URLs for every query. -/
def envFivePhotos : ServiceEnv :=
  ⟨true, false,
   fun _ => .responds (.response 200
     ⟨[⟨"u1", "t1"⟩, ⟨"u2", "t2"⟩, ⟨"u3", "t3"⟩, ⟨"u4", "t4"⟩,
       ⟨"u5", "t5"⟩]⟩) .exn⟩

/-- C4 counterexample: with `k = 5` requested and 5 URLs found, a
destination record populates only 4 slots, not `min 5 5 = 5` -- the claim
as stated fails for requested counts above the four named slots. -/
theorem c4_slot_fill_counterexample :
    (foundImages envFivePhotos []
        ([parisRecord].map build_destination_search_query) 5 0 0).length
      = 5 ∧
    ((enhance_destinations_with_images envFivePhotos [] [parisRecord] 5
        0)[0]?).map destPopulatedSlots = some 4 ∧
    (4 : Nat) ≠ min 5 5 := by
  refine ⟨by decide, by decide, by decide⟩

/-- C4 witness: two URLs found for a two-image request on an empty cache
populate exactly two destination slots positionally. -/
theorem c4_slot_fill_witness :
    (∀ e ∈ ([] : Cache), ∀ q : String, e.key = image_cache_key q 2 →
      e.value.length ≤ 2) ∧
    ([parisRecord][0]? = some parisRecord) ∧
    (let found := foundImages envUnsplashOnly []
        ([parisRecord].map build_destination_search_query) 2 0 0
     found.length ≤ 2 ∧
     ((enhance_destinations_with_images envUnsplashOnly [] [parisRecord] 2
        0)[0]?).map destPopulatedSlots = some (min (min 2 found.length) 4) ∧
     ((enhance_destinations_with_images envUnsplashOnly [] [parisRecord] 2
        0)[0]?).map DestRecord.image = some found[0]? ∧
     ((enhance_destinations_with_images envUnsplashOnly [] [parisRecord] 2
        0)[0]?).map DestRecord.image2 = some found[1]? ∧
     ((enhance_destinations_with_images envUnsplashOnly [] [parisRecord] 2
        0)[0]?).map DestRecord.image3 = some found[2]? ∧
     ((enhance_destinations_with_images envUnsplashOnly [] [parisRecord] 2
        0)[0]?).map DestRecord.image4 = some found[3]?) :=
  ⟨by simp, rfl,
   (c4_slot_fill envUnsplashOnly [] 2 0 (by simp)).1 [parisRecord] 0
     parisRecord rfl⟩

end TravelMate
